import Mathlib

/- Shallow embedding of the HTTP API layer (`src/api.rs`) of the polaris media
server: the domain-error-to-status translator, the percent-decoding path
decoder, the session-cookie authentication gate, the credential handler, and
the browse / flatten / serve handlers.  The collection service, the
filesystem and the thumbnail generator are collaborators behind narrow
contracts; they are modelled as an abstract environment of functions. -/

/-- The domain error type `PError` (from `error.rs`), a closed set of failure
kinds, exactly the variants matched in `From<PError> for IronError`.  The
`Io` variant wraps an `io::Error` in the source; the payload is irrelevant to
the translation so it is omitted here. -/
inductive PError where
  | Io
  | CannotClearExistingIndex
  | PathDecoding
  | ConfigDirectoryError
  | CacheDirectoryError
  | PathNotInVfs
  | CannotServeDirectory
  | UnsupportedFileType
  | AlbumArtSearchError
  | ImageProcessingError
  | UnsupportedMetadataFormat
  | MetadataDecodingError
  | Unauthorized
  | IncorrectCredentials
deriving DecidableEq, Repr

/-- The transport status codes used by `api.rs` (`iron::status`). -/
inductive Status where
  | Ok
  | BadRequest
  | NotFound
  | InternalServerError
  | Unauthorized
  | Forbidden
deriving DecidableEq, Repr

/-- The kinds of `io::Error` distinguished by the serve handler
(`e.kind()` is matched against `NotFound`, `PermissionDenied`, and a
catch-all). -/
inductive IoErrorKind where
  | notFound
  | permissionDenied
  | other
deriving DecidableEq, Repr

/-- The error payload carried by an `IronError`: a domain error, a UTF-8
decoding error from the path decoder, an `io::Error` from `fs::metadata`, or
a serialization error from `json::encode`. -/
inductive ErrSource where
  | perr (e : PError)
  | utf8Error
  | ioError (k : IoErrorKind)
  | jsonEncodeError
deriving DecidableEq, Repr

/-- `iron::IronError`: an error source paired with the response status chosen
for it. -/
structure IronError where
  source : ErrSource
  status : Status
deriving DecidableEq, Repr

/-- The status assigned to each `PError` kind by `From<PError> for IronError`
in `api.rs`. -/
def perror_status : PError → Status
  | .Io => .NotFound
  | .CannotClearExistingIndex => .InternalServerError
  | .PathDecoding => .InternalServerError
  | .ConfigDirectoryError => .InternalServerError
  | .CacheDirectoryError => .InternalServerError
  | .PathNotInVfs => .NotFound
  | .CannotServeDirectory => .BadRequest
  | .UnsupportedFileType => .BadRequest
  | .AlbumArtSearchError => .InternalServerError
  | .ImageProcessingError => .InternalServerError
  | .UnsupportedMetadataFormat => .InternalServerError
  | .MetadataDecodingError => .InternalServerError
  | .Unauthorized => .Unauthorized
  | .IncorrectCredentials => .BadRequest

/-- `From<PError> for IronError`: pair the domain error with its status. -/
def iron_from_perror (e : PError) : IronError :=
  ⟨.perr e, perror_status e⟩

/-- The status table of spec section 4.2, written from the spec's own words:
I/O failure to Not Found, index rebuild conflict to Internal Server Error,
path decoding to Internal Server Error, configuration/cache directory
failure to Internal Server Error, path outside managed namespace to Not
Found, cannot-serve-directory to Bad Request, unsupported file type to Bad
Request, album-art search failure to Internal Server Error, image-processing
failure to Internal Server Error, unsupported metadata format and metadata
decoding failure to Internal Server Error, unauthorized to Unauthorized,
incorrect credentials to Bad Request. -/
def spec_status_table : PError → Status
  | .Io => .NotFound
  | .CannotClearExistingIndex => .InternalServerError
  | .PathDecoding => .InternalServerError
  | .ConfigDirectoryError => .InternalServerError
  | .CacheDirectoryError => .InternalServerError
  | .PathNotInVfs => .NotFound
  | .CannotServeDirectory => .BadRequest
  | .UnsupportedFileType => .BadRequest
  | .AlbumArtSearchError => .InternalServerError
  | .ImageProcessingError => .InternalServerError
  | .UnsupportedMetadataFormat => .InternalServerError
  | .MetadataDecodingError => .InternalServerError
  | .Unauthorized => .Unauthorized
  | .IncorrectCredentials => .BadRequest

/-- Decidable equality for `Except`, so that concrete handler outcomes can be
checked by evaluation. -/
instance exceptDecEq {ε α : Type} [DecidableEq ε] [DecidableEq α] :
    DecidableEq (Except ε α)
  | .ok a, .ok b =>
    if h : a = b then isTrue (by rw [h]) else isFalse (by intro hh; cases hh; exact h rfl)
  | .ok _, .error _ => isFalse (by intro h; cases h)
  | .error _, .ok _ => isFalse (by intro h; cases h)
  | .error a, .error b =>
    if h : a = b then isTrue (by rw [h]) else isFalse (by intro hh; cases hh; exact h rfl)

/-- UTF-8 encoding of a single scalar value, as Rust's `str::as_bytes`
produces it (1 to 4 bytes). -/
def utf8EncodeChar (c : Char) : List Nat :=
  if c.toNat < 128 then [c.toNat]
  else if c.toNat < 2048 then [192 + c.toNat / 64, 128 + c.toNat % 64]
  else if c.toNat < 65536 then
    [224 + c.toNat / 4096, 128 + (c.toNat / 64) % 64, 128 + c.toNat % 64]
  else
    [240 + c.toNat / 262144, 128 + (c.toNat / 4096) % 64, 128 + (c.toNat / 64) % 64,
      128 + c.toNat % 64]

/-- The UTF-8 byte sequence of a string (`str::as_bytes`). -/
def strToBytes (s : String) : List Nat :=
  (s.data.map utf8EncodeChar).flatten

/-- One step of a strict UTF-8 validating decoder.  The state is `none` after
a malformed byte, otherwise `some (acc, pending, need, low)`: the characters
decoded so far, the partial scalar value, the number of continuation bytes
still expected, and the smallest scalar value the current sequence is allowed
to produce (which rejects overlong encodings).  Surrogates and values above
0x10FFFF are rejected when a sequence completes, matching Rust's
`str::from_utf8`. -/
def utf8Step (state : Option (List Char × Nat × Nat × Nat)) (b : Nat) :
    Option (List Char × Nat × Nat × Nat) :=
  match state with
  | none => none
  | some (acc, pending, need, low) =>
    if need = 0 then
      if b < 128 then some (acc ++ [Char.ofNat b], 0, 0, 0)
      else if b < 192 then none
      else if b < 224 then some (acc, b - 192, 1, 128)
      else if b < 240 then some (acc, b - 224, 2, 2048)
      else if b < 248 then some (acc, b - 240, 3, 65536)
      else none
    else
      if 128 ≤ b ∧ b < 192 then
        if need = 1 then
          if low ≤ pending * 64 + (b - 128) ∧
              (pending * 64 + (b - 128) < 55296 ∨ 57344 ≤ pending * 64 + (b - 128)) ∧
              pending * 64 + (b - 128) < 1114112 then
            some (acc ++ [Char.ofNat (pending * 64 + (b - 128))], 0, 0, 0)
          else none
        else some (acc, pending * 64 + (b - 128), need - 1, low)
      else none

/-- Strict UTF-8 decoding of a byte sequence (Rust's `str::from_utf8` /
`decode_utf8`): `none` exactly when the bytes are not valid UTF-8. -/
def utf8Decode (l : List Nat) : Option (List Char) :=
  match l.foldl utf8Step (some ([], 0, 0, 0)) with
  | some (acc, _, 0, _) => some acc
  | _ => none

/-- Value of an ASCII hexadecimal digit byte, as the `url` crate's
percent-decoder reads it. -/
def hexVal (b : Nat) : Option Nat :=
  if 48 ≤ b ∧ b ≤ 57 then some (b - 48)
  else if 65 ≤ b ∧ b ≤ 70 then some (b - 55)
  else if 97 ≤ b ∧ b ≤ 102 then some (b - 87)
  else none

/-- `url::percent_encoding::percent_decode` on a byte sequence: a `%`
followed by two hexadecimal digits becomes the encoded byte; a `%` not
followed by two hexadecimal digits passes through unchanged, as do all other
bytes. -/
def percentDecode : List Nat → List Nat
  | [] => []
  | [b] => [b]
  | [b, c] => [b, c]
  | b :: a :: c :: rest2 =>
    if b = 37 then
      match hexVal a, hexVal c with
      | some hi, some lo => (hi * 16 + lo) :: percentDecode rest2
      | _, _ => 37 :: percentDecode (a :: c :: rest2)
    else b :: percentDecode (a :: c :: rest2)

/-- `Vec::join("\\")` on the request's path segments: the segments
interleaved with single backslashes. -/
def join_backslash : List String → String
  | [] => ""
  | [s] => s
  | s :: rest => s ++ "\\" ++ join_backslash rest

/-- A parsed body parameter (`params::Value`): a plain string or anything
else. -/
inductive ParamValue where
  | string (s : String)
  | other
deriving DecidableEq, Repr

/-- An HTTP request as the handlers see it: the URL path segments below the
mount point, the cookies, and the parsed body parameters. -/
structure Req where
  segments : List String
  cookies : List (String × String)
  params : List (String × ParamValue)

/-- `oven`'s `get_cookie`: the value of the first cookie with the given
name, if any. -/
def get_cookie (req : Req) (name : String) : Option String :=
  (req.cookies.find? (fun kv => kv.fst = name)).map (fun kv => kv.snd)

/-- `params::Map::find` on a single-element key path: the first parameter
with the given name, if any. -/
def find_param (req : Req) (name : String) : Option ParamValue :=
  (req.params.find? (fun kv => kv.fst = name)).map (fun kv => kv.snd)

/-- `path_from_request`: join the URL path segments with a backslash,
percent-decode the joined bytes and interpret them as UTF-8.  `none` models
the `Utf8Error` case. -/
def path_from_request (req : Req) : Option String :=
  (utf8Decode (percentDecode (strToBytes (join_backslash req.segments)))).map
    (fun cs => String.mk cs)

/-- What a regular-file check on `fs::Metadata` can see: a regular file, a
directory, or another kind of object. -/
inductive FileKind where
  | file
  | directory
  | other
deriving DecidableEq, Repr

/-- `fs::Metadata`, restricted to the field the serve handler reads. -/
structure Metadata where
  kind : FileKind
deriving DecidableEq, Repr

/-- `Metadata::is_file`. -/
def Metadata.is_file (m : Metadata) : Bool :=
  match m.kind with
  | .file => true
  | _ => false

/-- A session cookie as set by the credential handler (`CookiePair`): name,
value and path scope. -/
structure CookiePair where
  name : String
  value : String
  path : Option String
deriving DecidableEq, Repr

/-- A response body: the bytes of the file at a path (iron streams the file
when a `PathBuf` is used as a body), or literal text. -/
inductive Body where
  | file_contents (path : String)
  | text (s : String)
deriving DecidableEq, Repr

/-- A successful `iron::Response`: status, body, and the cookies set on it. -/
structure Response where
  status : Status
  body : Body
  cookies : List CookiePair
deriving DecidableEq, Repr

/-- The collaborators of the API layer: the collection service
(`auth`, `browse`, `flatten`, `locate`), the filesystem (`fs::metadata`),
the thumbnail generator (`get_thumbnail`), JSON serialization
(`json::encode`), and the two extension allow-lists used by the
classification helpers.  `Data` is the type of collection query results. -/
structure Env where
  Data : Type
  auth : String → String → Bool
  browseFn : String → Except PError Data
  flattenFn : String → Except PError Data
  locateFn : String → Except PError String
  metadataFn : String → Except IoErrorKind Metadata
  get_thumbnail : String → Nat → Except PError String
  json_encode : Data → Except Unit String
  audio_extensions : List String
  image_extensions : List String

/-- Modelled from the spec: the extension classifiers `is_song` and
`is_image` live in `utils.rs`, which is not part of this tree.  Per spec
section 4.6 classification is "case-insensitive and based on suffix matching
against a fixed allow-list per category". -/
def has_extension_in (extensions : List String) (path : String) : Bool :=
  extensions.any (fun ext =>
    List.isSuffixOf ("." ++ ext).data (path.data.map Char.toLower))

/-- Modelled from the spec: `is_song`, membership of the (lower-cased)
extension in the audio allow-list. -/
def is_song (audio_extensions : List String) (path : String) : Bool :=
  has_extension_in audio_extensions path

/-- Modelled from the spec: `is_image`, membership of the (lower-cased)
extension in the image allow-list. -/
def is_image (image_extensions : List String) (path : String) : Bool :=
  has_extension_in image_extensions path

/-- The status chosen for a `fs::metadata` failure in the serve handler,
by `io::Error::kind`. -/
def io_error_status : IoErrorKind → Status
  | .notFound => .NotFound
  | .permissionDenied => .Forbidden
  | .other => .InternalServerError

/-- The version payload (`{"major":1,"minor":0}` with braces written out). -/
def version_json : String :=
  "\x7b\"major\":1,\"minor\":0\x7d"

/-- The `version` handler. -/
def version (_ : Req) : Except IronError Response :=
  .ok ⟨.Ok, .text version_json, []⟩

/-- The `auth` handler: require `username` and `password` as plain string
parameters, delegate to the collection service's `auth`, and on success set
a `username` cookie scoped to `/` on an empty-bodied success response. -/
def auth (env : Env) (req : Req) : Except IronError Response :=
  match find_param req "username" with
  | some (.string username) =>
    match find_param req "password" with
    | some (.string password) =>
      if env.auth username password then
        .ok ⟨.Ok, .text "", [⟨"username", username, some "/"⟩]⟩
      else
        .error (iron_from_perror .IncorrectCredentials)
    | _ => .error (iron_from_perror .IncorrectCredentials)
  | _ => .error (iron_from_perror .IncorrectCredentials)

/-- The `browse` handler: decode the path (failure is Bad Request), delegate
to the collection service (failure goes through the error translator),
serialize the result (failure is Internal Server Error). -/
def browse (env : Env) (req : Req) : Except IronError Response :=
  match path_from_request req with
  | none => .error ⟨.utf8Error, .BadRequest⟩
  | some path =>
    match env.browseFn path with
    | .error e => .error (iron_from_perror e)
    | .ok browse_result =>
      match env.json_encode browse_result with
      | .error _ => .error ⟨.jsonEncodeError, .InternalServerError⟩
      | .ok j => .ok ⟨.Ok, .text j, []⟩

/-- The `flatten` handler, identical to `browse` but delegating to
`flatten`. -/
def flatten (env : Env) (req : Req) : Except IronError Response :=
  match path_from_request req with
  | none => .error ⟨.utf8Error, .BadRequest⟩
  | some path =>
    match env.flattenFn path with
    | .error e => .error (iron_from_perror e)
    | .ok flatten_result =>
      match env.json_encode flatten_result with
      | .error _ => .error ⟨.jsonEncodeError, .InternalServerError⟩
      | .ok j => .ok ⟨.Ok, .text j, []⟩

/-- The `art` helper: ask the thumbnail collaborator for a thumbnail of the
file at maximum dimension 400; serve the returned path on success, translate
the error otherwise. -/
def art (env : Env) (_ : Req) (real_path : String) : Except IronError Response :=
  match env.get_thumbnail real_path 400 with
  | .ok path => .ok ⟨.Ok, .file_contents path, []⟩
  | .error e => .error (iron_from_perror e)

/-- The `serve` handler: decode (failure is Bad Request), locate (any
failure is Not Found), stat (failure mapped by `io::ErrorKind`), reject
non-regular files, then dispatch on the extension classification: audio is
served raw, images go through `art`, anything else is
`UnsupportedFileType`. -/
def serve (env : Env) (req : Req) : Except IronError Response :=
  match path_from_request req with
  | none => .error ⟨.utf8Error, .BadRequest⟩
  | some virtual_path =>
    match env.locateFn virtual_path with
    | .error e => .error ⟨.perr e, .NotFound⟩
    | .ok real_path =>
      match env.metadataFn real_path with
      | .error k => .error ⟨.ioError k, io_error_status k⟩
      | .ok metadata =>
        if metadata.is_file = false then
          .error (iron_from_perror .CannotServeDirectory)
        else if is_song env.audio_extensions real_path then
          .ok ⟨.Ok, .file_contents real_path, []⟩
        else if is_image env.image_extensions real_path then
          art env req real_path
        else
          .error (iron_from_perror .UnsupportedFileType)

/-- An ASCII hexadecimal digit (uppercase) for a value below 16, as the
`url` crate's percent-encoder emits it. -/
def hexDigit (n : Nat) : Nat :=
  if n < 10 then 48 + n else 55 + n

/-- Percent-encoding of a byte sequence with every byte escaped: each byte
becomes `%` followed by two hexadecimal digits. -/
def percentEncodeBytes : List Nat → List Nat
  | [] => []
  | b :: rest => 37 :: hexDigit (b / 16) :: hexDigit (b % 16) :: percentEncodeBytes rest

/-- Percent-encoding of a string: every UTF-8 byte escaped, the result read
back as an (ASCII) string. -/
def percent_encode (s : String) : String :=
  String.mk ((percentEncodeBytes (strToBytes s)).map Char.ofNat)

/-- Split a character sequence at backslashes; the list of groups between
separators (never empty). -/
def split_chars : List Char → List (List Char)
  | [] => [[]]
  | c :: rest =>
    if c = '\\' then [] :: split_chars rest
    else
      match split_chars rest with
      | s :: ss => (c :: s) :: ss
      | [] => [[c]]

/-- The segment sequence of a decoded virtual path under the collection
service's backslash convention. -/
def split_backslash (s : String) : List String :=
  (split_chars s.data).map (fun l => String.mk l)

/-- The routes mounted by `get_api_handler`. -/
inductive Route where
  | version
  | auth
  | browse
  | flatten
  | serve
deriving DecidableEq, Repr

/-- `AuthRequirement::before`: pass if a `username` cookie is present
(whatever its value), otherwise reject with `Unauthorized`. -/
def auth_requirement_before (req : Req) : Except IronError Unit :=
  match get_cookie req "username" with
  | some _ => .ok ()
  | none => .error ⟨.perr .Unauthorized, .Unauthorized⟩

/-- The handler each route is mounted to, without the middleware chain. -/
def mounted_handler (env : Env) (r : Route) (req : Req) : Except IronError Response :=
  match r with
  | .version => version req
  | .auth => auth env req
  | .browse => browse env req
  | .flatten => flatten env req
  | .serve => serve env req

/-- `get_api_handler`: `/version/` and `/auth/` are mounted directly;
`/browse/`, `/flatten/` and `/serve/` sit behind a chain whose
`AuthRequirement` middleware runs before the mounted handler. -/
def get_api_handler (env : Env) (r : Route) (req : Req) : Except IronError Response :=
  match r with
  | .version => version req
  | .auth => auth env req
  | _ =>
    match auth_requirement_before req with
    | .error e => .error e
    | .ok _ => mounted_handler env r req

/-- Replace the thumbnail collaborator of an environment, leaving every other
collaborator unchanged: used to state that a handler outcome involves no
thumbnail call. -/
def set_thumbnailer (env : Env) (t : String → Nat → Except PError String) : Env :=
  ⟨env.Data, env.auth, env.browseFn, env.flattenFn, env.locateFn, env.metadataFn, t,
    env.json_encode, env.audio_extensions, env.image_extensions⟩

/-- A concrete environment: every credential accepted, every lookup
successful, `locate` prefixing the virtual path with `r`, every metadata read
a regular file, thumbnails at `thumb.jpg`, `mp3` as the audio allow-list and
`jpg` as the image allow-list. -/
def sample_env : Env :=
  ⟨Unit, fun _ _ => true, fun _ => .ok (), fun _ => .ok (), fun p => .ok ("r" ++ p),
    fun _ => .ok ⟨.file⟩, fun _ _ => .ok "thumb.jpg", fun _ => .ok "[]", ["mp3"], ["jpg"]⟩

/-- Like `sample_env`, but every metadata read reports a directory. -/
def dir_env : Env :=
  ⟨Unit, fun _ _ => true, fun _ => .ok (), fun _ => .ok (), fun p => .ok ("r" ++ p),
    fun _ => .ok ⟨.directory⟩, fun _ _ => .ok "thumb.jpg", fun _ => .ok "[]", ["mp3"], ["jpg"]⟩

/-- Like `sample_env`, but the collection service reports every path as
outside its managed namespace. -/
def vfs_err_env : Env :=
  ⟨Unit, fun _ _ => true, fun _ => .error .PathNotInVfs, fun _ => .error .PathNotInVfs,
    fun _ => .error .PathNotInVfs, fun _ => .ok ⟨.file⟩, fun _ _ => .ok "thumb.jpg",
    fun _ => .ok "[]", ["mp3"], ["jpg"]⟩

/-- Like `sample_env`, but `locate` fails with `PathDecoding`. -/
def locate_decerr_env : Env :=
  ⟨Unit, fun _ _ => true, fun _ => .ok (), fun _ => .ok (), fun _ => .error .PathDecoding,
    fun _ => .ok ⟨.file⟩, fun _ _ => .ok "thumb.jpg", fun _ => .ok "[]", ["mp3"], ["jpg"]⟩

/-- Every character holds a Unicode scalar value: below the surrogate range
or between it and 0x110000. -/
theorem char_toNat_valid (c : Char) :
    c.toNat < 55296 ∨ (57344 ≤ c.toNat ∧ c.toNat < 1114112) := by
  rcases c.valid with h | ⟨h1, h2⟩
  · exact Or.inl h
  · exact Or.inr ⟨h1, h2⟩

theorem utf8Step_ascii (acc : List Char) (b : Nat) (h : b < 128) :
    utf8Step (some (acc, 0, 0, 0)) b = some (acc ++ [Char.ofNat b], 0, 0, 0) := by
  simp only [utf8Step]
  rw [if_pos trivial, if_pos h]

theorem utf8Step_lead2 (acc : List Char) (b : Nat) (h1 : 192 ≤ b) (h2 : b < 224) :
    utf8Step (some (acc, 0, 0, 0)) b = some (acc, b - 192, 1, 128) := by
  simp only [utf8Step]
  rw [if_pos trivial, if_neg (by omega), if_neg (by omega), if_pos h2]

theorem utf8Step_lead3 (acc : List Char) (b : Nat) (h1 : 224 ≤ b) (h2 : b < 240) :
    utf8Step (some (acc, 0, 0, 0)) b = some (acc, b - 224, 2, 2048) := by
  simp only [utf8Step]
  rw [if_pos trivial, if_neg (by omega), if_neg (by omega), if_neg (by omega), if_pos h2]

theorem utf8Step_lead4 (acc : List Char) (b : Nat) (h1 : 240 ≤ b) (h2 : b < 248) :
    utf8Step (some (acc, 0, 0, 0)) b = some (acc, b - 240, 3, 65536) := by
  simp only [utf8Step]
  rw [if_pos trivial, if_neg (by omega), if_neg (by omega), if_neg (by omega), if_neg (by omega),
    if_pos h2]

theorem utf8Step_cont (acc : List Char) (pending need low b : Nat) (h1 : 128 ≤ b)
    (h2 : b < 192) (h3 : need ≠ 0) (h4 : need ≠ 1) :
    utf8Step (some (acc, pending, need, low)) b =
      some (acc, pending * 64 + (b - 128), need - 1, low) := by
  simp only [utf8Step]
  rw [if_neg h3, if_pos ⟨h1, h2⟩, if_neg h4]

theorem utf8Step_fin (acc : List Char) (pending low b : Nat) (h1 : 128 ≤ b) (h2 : b < 192)
    (hchk : low ≤ pending * 64 + (b - 128) ∧
      (pending * 64 + (b - 128) < 55296 ∨ 57344 ≤ pending * 64 + (b - 128)) ∧
      pending * 64 + (b - 128) < 1114112) :
    utf8Step (some (acc, pending, 1, low)) b =
      some (acc ++ [Char.ofNat (pending * 64 + (b - 128))], 0, 0, 0) := by
  simp only [utf8Step]
  rw [if_neg (by omega), if_pos ⟨h1, h2⟩, if_pos trivial, if_pos hchk]

/-- Feeding the UTF-8 encoding of one character to the decoding automaton
from a completed state appends exactly that character. -/
theorem foldl_utf8Step_encodeChar (c : Char) (acc : List Char) :
    List.foldl utf8Step (some (acc, 0, 0, 0)) (utf8EncodeChar c) = some (acc ++ [c], 0, 0, 0) := by
  have hv := char_toNat_valid c
  by_cases h1 : c.toNat < 128
  · rw [utf8EncodeChar, if_pos h1]
    rw [List.foldl_cons, utf8Step_ascii acc c.toNat h1, List.foldl_nil, Char.ofNat_toNat]
  · by_cases h2 : c.toNat < 2048
    · rw [utf8EncodeChar, if_neg h1, if_pos h2]
      rw [List.foldl_cons, utf8Step_lead2 acc _ (by omega) (by omega)]
      rw [List.foldl_cons,
        utf8Step_fin acc _ _ _ (by omega) (by omega) (by constructor <;> omega)]
      rw [List.foldl_nil]
      have harith : (192 + c.toNat / 64 - 192) * 64 + (128 + c.toNat % 64 - 128) = c.toNat := by
        omega
      rw [harith, Char.ofNat_toNat]
    · by_cases h3 : c.toNat < 65536
      · rw [utf8EncodeChar, if_neg h1, if_neg h2, if_pos h3]
        rw [List.foldl_cons, utf8Step_lead3 acc _ (by omega) (by omega)]
        rw [List.foldl_cons,
          utf8Step_cont acc _ _ _ _ (by omega) (by omega) (by omega) (by omega)]
        rw [List.foldl_cons,
          utf8Step_fin acc _ _ _ (by omega) (by omega) (by constructor <;> omega)]
        rw [List.foldl_nil]
        have harith : ((224 + c.toNat / 4096 - 224) * 64 + (128 + c.toNat / 64 % 64 - 128)) * 64 +
            (128 + c.toNat % 64 - 128) = c.toNat := by
          omega
        rw [harith, Char.ofNat_toNat]
      · rw [utf8EncodeChar, if_neg h1, if_neg h2, if_neg h3]
        rw [List.foldl_cons, utf8Step_lead4 acc _ (by omega) (by omega)]
        rw [List.foldl_cons,
          utf8Step_cont acc _ _ _ _ (by omega) (by omega) (by omega) (by omega)]
        rw [List.foldl_cons,
          utf8Step_cont acc _ _ _ _ (by omega) (by omega) (by omega) (by omega)]
        rw [List.foldl_cons,
          utf8Step_fin acc _ _ _ (by omega) (by omega) (by constructor <;> omega)]
        rw [List.foldl_nil]
        have harith : (((240 + c.toNat / 262144 - 240) * 64 + (128 + c.toNat / 4096 % 64 - 128)) *
            64 + (128 + c.toNat / 64 % 64 - 128)) * 64 + (128 + c.toNat % 64 - 128) =
            c.toNat := by
          omega
        rw [harith, Char.ofNat_toNat]

theorem foldl_utf8Step_encodeList (cs : List Char) (acc : List Char) :
    List.foldl utf8Step (some (acc, 0, 0, 0)) ((cs.map utf8EncodeChar).flatten) =
      some (acc ++ cs, 0, 0, 0) := by
  induction cs generalizing acc with
  | nil => simp
  | cons c cs ih =>
    rw [List.map_cons, List.flatten_cons, List.foldl_append, foldl_utf8Step_encodeChar c acc, ih]
    simp

/-- The modelled decoder is a left inverse of the modelled encoder. -/
theorem utf8Decode_strToBytes (s : String) : utf8Decode (strToBytes s) = some s.data := by
  rw [utf8Decode, strToBytes, foldl_utf8Step_encodeList s.data []]
  simp

theorem hexVal_hexDigit (x : Nat) (h : x < 16) : hexVal (hexDigit x) = some x := by
  by_cases h10 : x < 10
  · rw [hexDigit, if_pos h10, hexVal, if_pos (by omega)]
    congr 1
    omega
  · rw [hexDigit, if_neg h10, hexVal, if_neg (by omega), if_pos (by omega)]
    congr 1
    omega

/-- Percent-decoding undoes `percentEncodeBytes` and continues with the
remainder of the input. -/
theorem percentDecode_encodeBytes (bs : List Nat) (rest : List Nat) (h : ∀ b ∈ bs, b < 256) :
    percentDecode (percentEncodeBytes bs ++ rest) = bs ++ percentDecode rest := by
  induction bs with
  | nil => simp [percentEncodeBytes]
  | cons b bs ih =>
    have hb : b < 256 := h b (List.mem_cons_self b bs)
    rw [percentEncodeBytes, List.cons_append, List.cons_append, List.cons_append]
    rw [percentDecode]
    rw [if_pos rfl, hexVal_hexDigit (b / 16) (by omega), hexVal_hexDigit (b % 16) (by omega)]
    rw [ih (fun x hx => h x (List.mem_cons_of_mem b hx))]
    have harith : b / 16 * 16 + b % 16 = b := by omega
    show (b / 16 * 16 + b % 16) :: (bs ++ percentDecode rest) = b :: bs ++ percentDecode rest
    rw [harith]
    rfl

theorem utf8EncodeChar_lt_256 (c : Char) : ∀ b ∈ utf8EncodeChar c, b < 256 := by
  have hv := char_toNat_valid c
  intro b hb
  rw [utf8EncodeChar] at hb
  split_ifs at hb with h1 h2 h3
  · simp at hb
    omega
  · simp [List.mem_cons] at hb
    rcases hb with hb | hb <;> omega
  · simp [List.mem_cons] at hb
    rcases hb with hb | hb | hb <;> omega
  · simp [List.mem_cons] at hb
    rcases hb with hb | hb | hb | hb <;> omega

theorem strToBytes_lt_256 (s : String) : ∀ b ∈ strToBytes s, b < 256 := by
  intro b hb
  rw [strToBytes] at hb
  rw [List.mem_flatten] at hb
  obtain ⟨l, hl, hbl⟩ := hb
  rw [List.mem_map] at hl
  obtain ⟨c, _, rfl⟩ := hl
  exact utf8EncodeChar_lt_256 c b hbl

theorem percentEncodeBytes_lt_128 (bs : List Nat) (h : ∀ b ∈ bs, b < 256) :
    ∀ x ∈ percentEncodeBytes bs, x < 128 := by
  induction bs with
  | nil => simp [percentEncodeBytes]
  | cons b bs ih =>
    have hb : b < 256 := h b (List.mem_cons_self b bs)
    intro x hx
    rw [percentEncodeBytes] at hx
    simp only [List.mem_cons] at hx
    rcases hx with rfl | rfl | rfl | hx
    · omega
    · rw [hexDigit]
      split_ifs <;> omega
    · rw [hexDigit]
      split_ifs <;> omega
    · exact ih (fun y hy => h y (List.mem_cons_of_mem b hy)) x hx

theorem toNat_ofNat_valid (n : Nat) (h : n.isValidChar) : (Char.ofNat n).toNat = n := by
  rw [Char.ofNat, dif_pos h]
  simp [Char.ofNatAux, Char.toNat, UInt32.toNat, BitVec.toNat_ofNatLt]

theorem utf8EncodeChar_ofNat_ascii (b : Nat) (h : b < 128) :
    utf8EncodeChar (Char.ofNat b) = [b] := by
  have hvalid : b.isValidChar := Or.inl (by omega)
  rw [utf8EncodeChar, toNat_ofNat_valid b hvalid, if_pos h]

theorem strToBytes_mk_ascii (bs : List Nat) (h : ∀ b ∈ bs, b < 128) :
    strToBytes (String.mk (bs.map Char.ofNat)) = bs := by
  rw [strToBytes]
  induction bs with
  | nil => simp
  | cons b rest ih =>
    have hb : b < 128 := h b (List.mem_cons_self b rest)
    simp only [String.data]
    rw [List.map_cons, List.map_cons, List.flatten_cons,
      utf8EncodeChar_ofNat_ascii b hb]
    have hrest := ih (fun y hy => h y (List.mem_cons_of_mem b hy))
    simp only [String.data] at hrest
    rw [List.cons_append, List.nil_append, hrest]

theorem strToBytes_percent_encode (s : String) :
    strToBytes (percent_encode s) = percentEncodeBytes (strToBytes s) := by
  rw [percent_encode]
  exact strToBytes_mk_ascii (percentEncodeBytes (strToBytes s))
    (percentEncodeBytes_lt_128 (strToBytes s) (strToBytes_lt_256 s))

theorem strToBytes_append (a b : String) :
    strToBytes (a ++ b) = strToBytes a ++ strToBytes b := by
  rw [strToBytes, strToBytes, strToBytes, String.data_append, List.map_append,
    List.flatten_append]

theorem percentDecode_cons_ne (b : Nat) (l : List Nat) (h : b ≠ 37) :
    percentDecode (b :: l) = b :: percentDecode l := by
  match l with
  | [] => rfl
  | [c] => rfl
  | c :: d :: r =>
    rw [percentDecode, if_neg h]

theorem backslash_data : ("\\" : String).data = ['\\'] := rfl

theorem strToBytes_backslash : strToBytes "\\" = [92] := by decide

/-- Percent-decoding the joined percent-encoded segments recovers the joined
raw segments, byte for byte. -/
theorem percentDecode_encoded_join (p : List String) :
    percentDecode (strToBytes (join_backslash (p.map percent_encode))) =
      strToBytes (join_backslash p) := by
  induction p with
  | nil => rfl
  | cons s r ih =>
    match r with
    | [] =>
      show percentDecode (strToBytes (percent_encode s)) = strToBytes s
      rw [strToBytes_percent_encode]
      have hdec := percentDecode_encodeBytes (strToBytes s) [] (strToBytes_lt_256 s)
      simp only [List.append_nil] at hdec
      rw [hdec]
      simp [percentDecode]
    | s2 :: r2 =>
      show percentDecode (strToBytes (percent_encode s ++ "\\" ++
          join_backslash ((s2 :: r2).map percent_encode))) =
        strToBytes (s ++ "\\" ++ join_backslash (s2 :: r2))
      rw [strToBytes_append, strToBytes_append, strToBytes_percent_encode,
        strToBytes_backslash]
      rw [List.append_assoc, List.singleton_append]
      rw [percentDecode_encodeBytes (strToBytes s) _ (strToBytes_lt_256 s)]
      rw [percentDecode_cons_ne 92 _ (by omega), ih]
      rw [strToBytes_append, strToBytes_append, strToBytes_backslash]
      simp [List.append_assoc]

theorem split_chars_ne_nil (l : List Char) : split_chars l ≠ [] := by
  match l with
  | [] => simp [split_chars]
  | c :: rest =>
    rw [split_chars]
    split_ifs
    · simp
    · cases hs : split_chars rest <;> simp

theorem split_chars_append (a l : List Char) (h : ∀ c ∈ a, c ≠ '\\') :
    split_chars (a ++ l) = (a ++ (split_chars l).headI) :: (split_chars l).tail := by
  induction a with
  | nil =>
    cases hs : split_chars l with
    | nil => exact absurd hs (split_chars_ne_nil l)
    | cons s ss => simp [hs]
  | cons c a ih =>
    have hc : c ≠ '\\' := h c (List.mem_cons_self c a)
    rw [List.cons_append, split_chars, if_neg hc,
      ih (fun x hx => h x (List.mem_cons_of_mem c hx))]
    simp

theorem mk_data (s : String) : String.mk s.data = s := rfl

/-- Splitting at backslashes undoes joining with backslashes, for a nonempty
segment list whose segments are backslash-free. -/
theorem split_join_backslash (p : List String) (hne : p ≠ [])
    (h : ∀ s ∈ p, ∀ c ∈ s.data, c ≠ '\\') :
    split_backslash (join_backslash p) = p := by
  induction p with
  | nil => exact absurd rfl hne
  | cons s r ih =>
    match r with
    | [] =>
      show split_backslash s = [s]
      rw [split_backslash]
      have hs := h s (List.mem_cons_self s [])
      have hsplit : split_chars s.data = [s.data] := by
        have happ := split_chars_append s.data [] hs
        simp only [List.append_nil] at happ
        rw [happ]
        simp [split_chars]
      rw [hsplit]
      simp [mk_data]
    | s2 :: r2 =>
      show split_backslash (s ++ "\\" ++ join_backslash (s2 :: r2)) = s :: s2 :: r2
      rw [split_backslash]
      have hdata : (s ++ "\\" ++ join_backslash (s2 :: r2)).data =
          s.data ++ '\\' :: (join_backslash (s2 :: r2)).data := by
        rw [String.data_append, String.data_append, backslash_data]
        simp
      rw [hdata]
      have hs := h s (List.mem_cons_self s (s2 :: r2))
      rw [split_chars_append s.data _ hs]
      have hsplit : split_chars ('\\' :: (join_backslash (s2 :: r2)).data) =
          [] :: split_chars (join_backslash (s2 :: r2)).data := by
        rw [split_chars, if_pos rfl]
      rw [hsplit]
      have ihr := ih (by simp) (fun x hx => h x (List.mem_cons_of_mem s hx))
      rw [split_backslash] at ihr
      simp only [List.headI, List.tail, List.map_cons]
      rw [List.append_nil, mk_data, ihr]

/-- Claim C1: the error translator is a total mapping from the closed set of
`PError` kinds to transport statuses, agreeing with the section 4.2 table on
every kind: I/O failure to Not Found, index rebuild conflict to Internal
Server Error, path decoding to Internal Server Error, configuration and
cache directory failures to Internal Server Error, path outside the managed
namespace to Not Found, cannot-serve-directory to Bad Request, unsupported
file type to Bad Request, album-art search failure to Internal Server Error,
image processing failure to Internal Server Error, unsupported metadata
format and metadata decoding failure to Internal Server Error, unauthorized
to Unauthorized, incorrect credentials to Bad Request; no kind is left
unmapped. -/
theorem error_translator_matches_table (e : PError) :
    iron_from_perror e = ⟨.perr e, spec_status_table e⟩ := by
  cases e <;> rfl

/-- Claim C2: a request to a protected route (browse, flatten, serve) with no
`username` cookie terminates at the gate with the Unauthorized error for
every environment, so no collaborator is consulted; a request carrying the
cookie, whatever its value, is handled exactly as by the downstream mounted
handler. -/
theorem auth_gate_short_circuits (r : Route) (req : Req)
    (hr : r = .browse ∨ r = .flatten ∨ r = .serve) :
    (get_cookie req "username" = none →
      ∀ env : Env, get_api_handler env r req = .error ⟨.perr .Unauthorized, .Unauthorized⟩) ∧
    (∀ v : String, get_cookie req "username" = some v →
      ∀ env : Env, get_api_handler env r req = mounted_handler env r req) := by
  constructor
  · intro hc env
    rcases hr with rfl | rfl | rfl <;>
      simp only [get_api_handler, auth_requirement_before, hc]
  · intro v hc env
    rcases hr with rfl | rfl | rfl <;>
      simp only [get_api_handler, auth_requirement_before, hc, mounted_handler]

/-- Witness for claim C2: a cookieless serve request is rejected with
Unauthorized, and the same request with a cookie goes to the serve
handler. -/
theorem auth_gate_short_circuits_witness :
    (Route.serve = .browse ∨ Route.serve = .flatten ∨ Route.serve = .serve) ∧
    get_api_handler sample_env .serve ⟨["a.mp3"], [], []⟩ =
      .error ⟨.perr .Unauthorized, .Unauthorized⟩ ∧
    get_api_handler sample_env .serve ⟨["a.mp3"], [("username", "u")], []⟩ =
      mounted_handler sample_env .serve ⟨["a.mp3"], [("username", "u")], []⟩ :=
  ⟨Or.inr (Or.inr rfl),
    (auth_gate_short_circuits .serve ⟨["a.mp3"], [], []⟩ (Or.inr (Or.inr rfl))).1 rfl sample_env,
    (auth_gate_short_circuits .serve ⟨["a.mp3"], [("username", "u")], []⟩
      (Or.inr (Or.inr rfl))).2 "u" rfl sample_env⟩

/-- Claim C3: when the virtual path decodes, locates to a real path whose
metadata reads as a regular file, and the file name matches the audio
allow-list, serve succeeds with the real file itself as the body byte
source, and the outcome does not depend on the thumbnail collaborator. -/
theorem serve_audio_raw_bytes (env : Env) (req : Req) (vp rp : String) (m : Metadata)
    (hdec : path_from_request req = some vp)
    (hloc : env.locateFn vp = .ok rp)
    (hmeta : env.metadataFn rp = .ok m)
    (hfile : m.is_file = true)
    (hsong : is_song env.audio_extensions rp = true) :
    serve env req = .ok ⟨.Ok, .file_contents rp, []⟩ ∧
    (∀ t : String → Nat → Except PError String,
      serve (set_thumbnailer env t) req = serve env req) := by
  have hmain : serve env req = .ok ⟨.Ok, .file_contents rp, []⟩ := by
    simp only [serve, hdec, hloc, hmeta, hfile, hsong]
    simp
  refine ⟨hmain, fun t => ?_⟩
  rw [hmain]
  simp only [serve, set_thumbnailer, hdec, hloc, hmeta, hfile, hsong]
  simp

/-- Witness for claim C3: serving `a.mp3` in a concrete environment yields
the located file's bytes. -/
theorem serve_audio_raw_bytes_witness :
    path_from_request ⟨["a.mp3"], [], []⟩ = some "a.mp3" ∧
    sample_env.locateFn "a.mp3" = .ok "ra.mp3" ∧
    sample_env.metadataFn "ra.mp3" = .ok ⟨.file⟩ ∧
    (Metadata.mk .file).is_file = true ∧
    is_song sample_env.audio_extensions "ra.mp3" = true ∧
    serve sample_env ⟨["a.mp3"], [], []⟩ = .ok ⟨.Ok, .file_contents "ra.mp3", []⟩ :=
  ⟨by decide, rfl, rfl, rfl, by decide,
    (serve_audio_raw_bytes sample_env ⟨["a.mp3"], [], []⟩ "a.mp3" "ra.mp3" ⟨.file⟩
      (by decide) rfl rfl rfl (by decide)).1⟩

/-- Claim C4: when the resolved regular file is not in the audio allow-list
but is in the image allow-list, serve delegates to the thumbnail
collaborator at maximum dimension 400; on success the body byte source is
the returned thumbnail path, and on failure the collaborator's error goes
through the section 4.2 translation. -/
theorem serve_image_thumbnail (env : Env) (req : Req) (vp rp : String) (m : Metadata)
    (hdec : path_from_request req = some vp)
    (hloc : env.locateFn vp = .ok rp)
    (hmeta : env.metadataFn rp = .ok m)
    (hfile : m.is_file = true)
    (hnsong : is_song env.audio_extensions rp = false)
    (himg : is_image env.image_extensions rp = true) :
    (∀ t : String, env.get_thumbnail rp 400 = .ok t →
      serve env req = .ok ⟨.Ok, .file_contents t, []⟩) ∧
    (∀ e : PError, env.get_thumbnail rp 400 = .error e →
      serve env req = .error (iron_from_perror e)) := by
  constructor
  · intro t ht
    simp only [serve, hdec, hloc, hmeta, hfile, hnsong, himg, art, ht]
    simp
  · intro e he
    simp only [serve, hdec, hloc, hmeta, hfile, hnsong, himg, art, he]
    simp

/-- Witness for claim C4: serving `a.jpg` in a concrete environment yields
the thumbnail collaborator's output path, not the original file. -/
theorem serve_image_thumbnail_witness :
    path_from_request ⟨["a.jpg"], [], []⟩ = some "a.jpg" ∧
    sample_env.locateFn "a.jpg" = .ok "ra.jpg" ∧
    sample_env.metadataFn "ra.jpg" = .ok ⟨.file⟩ ∧
    is_song sample_env.audio_extensions "ra.jpg" = false ∧
    is_image sample_env.image_extensions "ra.jpg" = true ∧
    sample_env.get_thumbnail "ra.jpg" 400 = .ok "thumb.jpg" ∧
    serve sample_env ⟨["a.jpg"], [], []⟩ = .ok ⟨.Ok, .file_contents "thumb.jpg", []⟩ :=
  ⟨by decide, rfl, rfl, by decide, by decide, rfl,
    (serve_image_thumbnail sample_env ⟨["a.jpg"], [], []⟩ "a.jpg" "ra.jpg" ⟨.file⟩
      (by decide) rfl rfl rfl (by decide) (by decide)).1 "thumb.jpg" rfl⟩

/-- Claim C5: the credential handler returns success with an empty body and a
`username` cookie carrying the submitted username scoped to `/` exactly when
both fields are plain strings and the collection service accepts them; if a
field is absent or not a plain string, or authentication rejects the pair,
it fails with `IncorrectCredentials` (Bad Request) and no cookie is set. -/
theorem auth_handler_cookie (env : Env) (req : Req) :
    (∀ u p : String, find_param req "username" = some (.string u) →
      find_param req "password" = some (.string p) →
      (env.auth u p = true →
        auth env req = .ok ⟨.Ok, .text "", [⟨"username", u, some "/"⟩]⟩) ∧
      (env.auth u p = false →
        auth env req = .error (iron_from_perror .IncorrectCredentials))) ∧
    ((∀ s : String, find_param req "username" ≠ some (.string s)) →
      auth env req = .error (iron_from_perror .IncorrectCredentials)) ∧
    (∀ u : String, find_param req "username" = some (.string u) →
      (∀ s : String, find_param req "password" ≠ some (.string s)) →
      auth env req = .error (iron_from_perror .IncorrectCredentials)) := by
  refine ⟨fun u p hu hp => ⟨fun hok => ?_, fun hbad => ?_⟩, fun hnu => ?_, fun u hu hnp => ?_⟩
  · simp only [auth, hu, hp, hok]
    simp
  · simp only [auth, hu, hp, hbad]
    simp
  · rw [auth]
    cases hfind : find_param req "username" with
    | none => rfl
    | some v =>
      cases v with
      | string s => exact absurd hfind (hnu s)
      | other => rfl
  · rw [auth]
    rw [hu]
    cases hfind : find_param req "password" with
    | none => rfl
    | some v =>
      cases v with
      | string s => exact absurd hfind (hnp s)
      | other => rfl

/-- Witness for claim C5: a request with string credentials accepted by the
collection service yields success and the `username` cookie. -/
theorem auth_handler_cookie_witness :
    find_param ⟨[], [], [("username", .string "u"), ("password", .string "pw")]⟩ "username" =
      some (.string "u") ∧
    find_param ⟨[], [], [("username", .string "u"), ("password", .string "pw")]⟩ "password" =
      some (.string "pw") ∧
    sample_env.auth "u" "pw" = true ∧
    auth sample_env ⟨[], [], [("username", .string "u"), ("password", .string "pw")]⟩ =
      .ok ⟨.Ok, .text "", [⟨"username", "u", some "/"⟩]⟩ :=
  ⟨by decide, by decide, rfl,
    ((auth_handler_cookie sample_env
        ⟨[], [], [("username", .string "u"), ("password", .string "pw")]⟩).1 "u" "pw"
      (by decide) (by decide)).1 rfl⟩

/-- Claim C6: when the percent-decoded request path bytes are not valid
UTF-8, the path decoder reports the failure (it is a total function, so it
cannot crash), and each of the browse, flatten and serve handlers surfaces
that failure as a Bad Request response. -/
theorem invalid_utf8_bad_request (env : Env) (req : Req)
    (h : utf8Decode (percentDecode (strToBytes (join_backslash req.segments))) = none) :
    path_from_request req = none ∧
    browse env req = .error ⟨.utf8Error, .BadRequest⟩ ∧
    flatten env req = .error ⟨.utf8Error, .BadRequest⟩ ∧
    serve env req = .error ⟨.utf8Error, .BadRequest⟩ := by
  have hp : path_from_request req = none := by
    rw [path_from_request, h]
    rfl
  exact ⟨hp, by simp only [browse, hp], by simp only [flatten, hp], by simp only [serve, hp]⟩

/-- Witness for claim C6: the segment `%FF` percent-decodes to the invalid
byte 255, and the serve handler answers Bad Request. -/
theorem invalid_utf8_bad_request_witness :
    utf8Decode (percentDecode (strToBytes (join_backslash ["%FF"]))) = none ∧
    path_from_request ⟨["%FF"], [], []⟩ = none ∧
    serve sample_env ⟨["%FF"], [], []⟩ = .error ⟨.utf8Error, .BadRequest⟩ :=
  ⟨by decide, (invalid_utf8_bad_request sample_env ⟨["%FF"], [], []⟩ (by decide)).1,
    (invalid_utf8_bad_request sample_env ⟨["%FF"], [], []⟩ (by decide)).2.2.2⟩

/-- Counterexample to claim C7 as stated: for the single-segment sequence
whose segment is `a\b` (a valid UTF-8 segment), decoding the percent-encoded
form yields the virtual path `a\b`, whose segment sequence under the
backslash convention is `[a, b]`, not the original one-segment sequence. -/
theorem path_decoder_roundtrip_cex :
    (path_from_request ⟨List.map percent_encode ["a\\b"], [], []⟩).map split_backslash =
      some ["a", "b"] ∧
    (path_from_request ⟨List.map percent_encode ["a\\b"], [], []⟩).map split_backslash ≠
      some ["a\\b"] := by
  constructor
  · decide
  · decide

/-- Claim C7, amended: for every nonempty segment sequence of valid UTF-8
segments none of which contains a backslash, applying the path decoder to
the percent-encoded form reconstructs the same segment sequence. -/
theorem path_decoder_roundtrip (p : List String) (hne : p ≠ [])
    (h : ∀ s ∈ p, ∀ c ∈ s.data, c ≠ '\\') :
    (path_from_request ⟨p.map percent_encode, [], []⟩).map split_backslash = some p := by
  show ((utf8Decode (percentDecode (strToBytes (join_backslash (p.map percent_encode))))).map
      (fun cs => String.mk cs)).map split_backslash = some p
  rw [percentDecode_encoded_join p, utf8Decode_strToBytes]
  show some (split_backslash (String.mk (join_backslash p).data)) = some p
  rw [mk_data, split_join_backslash p hne h]

/-- Witness for claim C7 (amended): a two-segment backslash-free sequence
round-trips through encoding and decoding. -/
theorem path_decoder_roundtrip_witness :
    (["MusicLibrary", "Artist"] : List String) ≠ [] ∧
    (∀ s ∈ (["MusicLibrary", "Artist"] : List String), ∀ c ∈ s.data, c ≠ '\\') ∧
    (path_from_request ⟨(["MusicLibrary", "Artist"] : List String).map percent_encode, [], []⟩).map
      split_backslash = some ["MusicLibrary", "Artist"] :=
  ⟨by decide, by decide,
    path_decoder_roundtrip ["MusicLibrary", "Artist"] (by decide) (by decide)⟩

/-- Claim C8: when the located path's metadata identifies a directory, serve
fails with `CannotServeDirectory`, whose translation is Bad Request; no byte
stream is returned. -/
theorem serve_directory_bad_request (env : Env) (req : Req) (vp rp : String)
    (hdec : path_from_request req = some vp)
    (hloc : env.locateFn vp = .ok rp)
    (hmeta : env.metadataFn rp = .ok ⟨.directory⟩) :
    serve env req = .error (iron_from_perror .CannotServeDirectory) ∧
    iron_from_perror .CannotServeDirectory = ⟨.perr .CannotServeDirectory, .BadRequest⟩ := by
  refine ⟨?_, rfl⟩
  simp only [serve, hdec, hloc, hmeta]
  simp [Metadata.is_file]

/-- Witness for claim C8: a request resolving to a directory is answered
with `CannotServeDirectory`. -/
theorem serve_directory_bad_request_witness :
    path_from_request ⟨["a"], [], []⟩ = some "a" ∧
    dir_env.locateFn "a" = .ok "ra" ∧
    dir_env.metadataFn "ra" = .ok ⟨.directory⟩ ∧
    serve dir_env ⟨["a"], [], []⟩ = .error (iron_from_perror .CannotServeDirectory) :=
  ⟨by decide, rfl, rfl,
    (serve_directory_bad_request dir_env ⟨["a"], [], []⟩ "a" "ra" (by decide) rfl rfl).1⟩

/-- Claim C9: when the collection service reports the decoded path as
outside its managed namespace, each of browse, flatten and serve answers
Not Found. -/
theorem path_not_in_vfs_not_found (env : Env) (req : Req) (vp : String)
    (hdec : path_from_request req = some vp) :
    (env.browseFn vp = .error .PathNotInVfs →
      browse env req = .error ⟨.perr .PathNotInVfs, .NotFound⟩) ∧
    (env.flattenFn vp = .error .PathNotInVfs →
      flatten env req = .error ⟨.perr .PathNotInVfs, .NotFound⟩) ∧
    (env.locateFn vp = .error .PathNotInVfs →
      serve env req = .error ⟨.perr .PathNotInVfs, .NotFound⟩) := by
  refine ⟨fun hb => ?_, fun hf => ?_, fun hl => ?_⟩
  · simp only [browse, hdec, hb]
    rfl
  · simp only [flatten, hdec, hf]
    rfl
  · simp only [serve, hdec, hl]

/-- Witness for claim C9: in an environment reporting every path as outside
the namespace, all three handlers answer Not Found. -/
theorem path_not_in_vfs_not_found_witness :
    path_from_request ⟨["a"], [], []⟩ = some "a" ∧
    vfs_err_env.browseFn "a" = .error .PathNotInVfs ∧
    vfs_err_env.flattenFn "a" = .error .PathNotInVfs ∧
    vfs_err_env.locateFn "a" = .error .PathNotInVfs ∧
    browse vfs_err_env ⟨["a"], [], []⟩ = .error ⟨.perr .PathNotInVfs, .NotFound⟩ ∧
    flatten vfs_err_env ⟨["a"], [], []⟩ = .error ⟨.perr .PathNotInVfs, .NotFound⟩ ∧
    serve vfs_err_env ⟨["a"], [], []⟩ = .error ⟨.perr .PathNotInVfs, .NotFound⟩ :=
  ⟨by decide, rfl, rfl, rfl,
    (path_not_in_vfs_not_found vfs_err_env ⟨["a"], [], []⟩ "a" (by decide)).1 rfl,
    (path_not_in_vfs_not_found vfs_err_env ⟨["a"], [], []⟩ "a" (by decide)).2.1 rfl,
    (path_not_in_vfs_not_found vfs_err_env ⟨["a"], [], []⟩ "a" (by decide)).2.2 rfl⟩

/-- Claim C10: every failure of the collection service's locate call in the
serve handler is answered with Not Found, whatever the domain error kind,
overriding the per-kind translation table at this call site. -/
theorem serve_locate_error_always_not_found (env : Env) (req : Req) (vp : String) (e : PError)
    (hdec : path_from_request req = some vp)
    (hloc : env.locateFn vp = .error e) :
    serve env req = .error ⟨.perr e, .NotFound⟩ := by
  simp only [serve, hdec, hloc]

/-- Witness for claim C10: a locate failure of kind `PathDecoding`, whose
table status is Internal Server Error, is still answered with Not Found by
the serve handler. -/
theorem serve_locate_error_always_not_found_witness :
    path_from_request ⟨["a"], [], []⟩ = some "a" ∧
    locate_decerr_env.locateFn "a" = .error .PathDecoding ∧
    perror_status .PathDecoding = .InternalServerError ∧
    serve locate_decerr_env ⟨["a"], [], []⟩ = .error ⟨.perr .PathDecoding, .NotFound⟩ :=
  ⟨by decide, rfl, rfl,
    serve_locate_error_always_not_found locate_decerr_env ⟨["a"], [], []⟩ "a" .PathDecoding
      (by decide) rfl⟩
